import Mathlib

/-!
Verification of the StreamableHttpTransport of mcp-sdk-typescript
(`src/unnamed/part_004`, class `StreamableHttpTransport`).

The transport is shallowly embedded: JSON-RPC messages become a structure
recording the presence/value of the `method` and `id` fields; the mutable
`sessions` and `pendingRequests` maps become association lists with the
JavaScript `Map` semantics (unique keys, `set` replaces in place, `delete`
removes the key); the mutable `this.send` slot -- which the initialize fast
path monkey-patches with a closure capturing the previous value of
`this.send` -- becomes an inductive stack of interceptions; writes to SSE
streams, resolved HTTP promises and error-callback invocations are recorded
in event lists of an explicit state.

Header convention: every header read site in the source collapses an
empty-string header value into an absent one (`origin && ...`,
`headers.get(..) || default`, `!acceptHeader || ...`, `sessionId && ...`),
and the Node adapter (part_004 lines 206-212) drops empty-valued headers
when converting to a Fetch `Request`.  Headers are therefore modelled as
`Option String` with the empty-string guards of the read sites kept
explicit in the definitions.
-/

/-- JSON-RPC `id` value: a string or a number (part_004 line 46,
`requestId: string | number`). -/
inductive RId where
  | str (s : String)
  | num (n : Int)
deriving DecidableEq, Repr

/-- Shallow embedding of a parsed JSON-RPC message, keeping exactly the
structure the transport inspects: whether a `method` field is present (and
its value), and whether an `id` field is present and whether it is `null`.
`idF = none` models an absent `id` field, `idF = some none` a present
`null` id, `idF = some (some r)` a present non-null id. -/
structure Msg where
  method? : Option String
  idF : Option (Option RId)
deriving DecidableEq, Repr

/-- Field-presence test for `method` (`"method" in message`). -/
def hasMethod (m : Msg) : Bool := m.method?.isSome

/-- Type guard `isJSONRPCRequest` (part_004 lines 135-137):
`"method" in message && "id" in message && message.id !== null`. -/
def isJSONRPCRequest (m : Msg) : Bool :=
  hasMethod m && (match m.idF with
    | some (some _) => true
    | _ => false)

/-- Type guard `isJSONRPCNotification` (part_004 lines 145-147):
`"method" in message && (!("id" in message) || message.id === null)`. -/
def isJSONRPCNotification (m : Msg) : Bool :=
  hasMethod m && (match m.idF with
    | none => true
    | some none => true
    | some (some _) => false)

/-- Type guard `isJSONRPCResponse` (part_004 lines 155-157):
`"id" in message && message.id !== null && !("method" in message)`. -/
def isJSONRPCResponse (m : Msg) : Bool :=
  (match m.idF with
    | some (some _) => true
    | _ => false) && !hasMethod m

/-- Shape rule of spec section 3: a well-formed JSON-RPC object either has a
`method` field (Request / Notification) or a present non-null `id`
(Response). -/
def wellFormedJSONRPC (m : Msg) : Bool :=
  hasMethod m || (match m.idF with
    | some (some _) => true
    | _ => false)

/-- State of a session's output sink: `noCtrl` models a `Session` whose
`controller` field is `undefined`; `live` a working
`ReadableStreamDefaultController`; `closed` a controller whose `enqueue`
throws because the stream is gone. -/
inductive SinkState where
  | noCtrl
  | live
  | closed
deriving DecidableEq, Repr

/-- Test for a closed (throwing) sink. -/
def sinkClosed : SinkState → Bool
  | .closed => true
  | _ => false

/-- Test for a live sink. -/
def sinkLive : SinkState → Bool
  | .live => true
  | _ => false

/-- A `PendingRequest` entry (part_004 lines 44-51). -/
structure PReq where
  requestId : RId
  sessionId : String
  timestamp : Int
deriving DecidableEq, Repr

/-- Lookup in an association list, modelling `Map.get`. -/
def alookup {κ α : Type} [DecidableEq κ] : List (κ × α) → κ → Option α
  | [], _ => none
  | (k, v) :: rest, q => if k = q then some v else alookup rest q

/-- Insertion modelling `Map.set`: replaces the value at an existing key in
place, otherwise appends (JavaScript `Map` keeps insertion order). -/
def aset {κ α : Type} [DecidableEq κ] (k : κ) (v : α) :
    List (κ × α) → List (κ × α)
  | [] => [(k, v)]
  | (k', v') :: rest =>
      if k' = k then (k, v) :: rest else (k', v') :: aset k v rest

/-- Deletion modelling `Map.delete`: removes the entry with the given key
(keys of a `Map` are unique, so filtering is the deletion). -/
def aerase {κ α : Type} [DecidableEq κ] (k : κ) (l : List (κ × α)) :
    List (κ × α) :=
  l.filter (fun p => decide ¬(p.1 = k))

/-- The mutable `this.send` slot.  `original` is the class method `send`
(part_004 lines 338-358).  `intercept rid pid inner` is the closure
installed by the initialize fast path (lines 427-449): it captured
`originalSend = this.send.bind(this)` -- the value `inner` the slot held at
install time -- and, when called, first restores `this.send := inner`
unconditionally, then either resolves HTTP promise `pid` (when the argument
is a Response with id `rid`) or forwards the argument to `inner`. -/
inductive SendSlot where
  | original
  | intercept (rid : RId) (pid : Nat) (inner : SendSlot)
deriving DecidableEq, Repr

/-- A resolved initialize fast-path HTTP reply: promise `pid` was resolved
with `new Response(JSON.stringify(msg), {status, Content-Type})`
(part_004 lines 440-443). -/
structure Resolved where
  pid : Nat
  status : Nat
  contentType : String
  msg : Msg
deriving DecidableEq, Repr

/-- Observable state of the transport: the two shared maps, the `this.send`
slot, and event logs for SSE writes (`delivered`), resolved fast-path
promises (`resolved`) and error-callback invocations (`errors`). -/
structure St where
  sessions : List (String × SinkState)
  pending : List (RId × PReq)
  slot : SendSlot
  delivered : List (String × Msg)
  resolved : List Resolved
  errors : List String
deriving DecidableEq, Repr

/-- One pass of `broadcastMessage`'s session loop (part_004 lines 640-651):
returns the surviving sessions, the writes performed, and the errors
reported.  A session without a controller is skipped and kept; a live
session receives the message and is kept; a closed session's `enqueue`
throws, so the session is deleted and the failure reported. -/
def broadcastStep (m : Msg) :
    List (String × SinkState) →
      List (String × SinkState) × List (String × Msg) × List String
  | [] => ([], [], [])
  | (sid, sk) :: rest =>
      let r := broadcastStep m rest
      match sk with
      | .noCtrl => ((sid, sk) :: r.1, r.2.1, r.2.2)
      | .live => ((sid, sk) :: r.1, (sid, m) :: r.2.1, r.2.2)
      | .closed =>
          (r.1, r.2.1, ("Session " ++ sid ++ " closed unexpectedly") :: r.2.2)

/-- `broadcastMessage` (part_004 lines 636-656): write the message to every
session independently; a failing session is removed and reported, the loop
continues. -/
def broadcastMessage (m : Msg) (st : St) : St :=
  let r := broadcastStep m st.sessions
  { st with
    sessions := r.1
    delivered := st.delivered ++ r.2.1
    errors := st.errors ++ r.2.2 }

/-- `sendResponse` (part_004 lines 582-629): look up the pending request for
the response's id; if found, consume it and write to the recorded session's
controller, falling back to broadcast (after removing the session if the
write threw, or reporting a routing failure if the session or its
controller is missing); if no pending request matches, broadcast. -/
def sendResponse (m : Msg) (st : St) : St :=
  match m.idF with
  | some (some rid) =>
      match alookup st.pending rid with
      | some pr =>
          let st1 : St := { st with pending := aerase rid st.pending }
          match alookup st1.sessions pr.sessionId with
          | some .live =>
              { st1 with delivered := st1.delivered ++ [(pr.sessionId, m)] }
          | some .closed =>
              broadcastMessage m
                { st1 with
                  sessions := aerase pr.sessionId st1.sessions
                  errors := st1.errors ++
                    ["Failed to send response to session " ++ pr.sessionId] }
          | some .noCtrl =>
              broadcastMessage m
                { st1 with errors := st1.errors ++ ["Response routing failed"] }
          | none =>
              broadcastMessage m
                { st1 with errors := st1.errors ++ ["Response routing failed"] }
      | none => broadcastMessage m st
  | _ => broadcastMessage m st

/-- The class method `send` (part_004 lines 338-358): a Response goes
through `sendResponse`; a Request, a Notification, and any unrecognized
message are broadcast. -/
def sendDispatch (m : Msg) (st : St) : St :=
  if isJSONRPCResponse m then sendResponse m st
  else if isJSONRPCRequest m then broadcastMessage m st
  else if isJSONRPCNotification m then broadcastMessage m st
  else broadcastMessage m st

/-- Execution of the function currently stored in the `this.send` slot.
For `original` this is the class method.  For an interception (part_004
lines 430-449) the closure first restores `this.send` to its captured
previous value, then resolves its HTTP promise with status 200 and JSON
content type when the argument is a Response with the matching id, and
otherwise forwards the argument to the captured previous send. -/
def execSend : SendSlot → Msg → St → St
  | .original, m, st => sendDispatch m st
  | .intercept rid pid inner, m, st =>
      let st1 : St := { st with slot := inner }
      if isJSONRPCResponse m = true ∧ m.idF = some (some rid) then
        { st1 with
          resolved := st1.resolved ++ [⟨pid, 200, "application/json", m⟩] }
      else
        execSend inner m st1

/-- A call `this.send(m)`: run whatever function the slot currently holds. -/
def callSend (m : Msg) (st : St) : St := execSend st.slot m st

/-- Installation of the initialize fast-path interception (part_004 lines
427-449): `this.send` is replaced by a closure over the current
`this.send`, keyed to the initialize request's id `rid` and this POST's
pending HTTP promise `pid`. -/
def installInitIntercept (rid : RId) (pid : Nat) (st : St) : St :=
  { st with slot := .intercept rid pid st.slot }

/-- The initialize branch of `handlePostRequest` (part_004 lines 421-459):
inside the returned promise's executor the interception is installed first,
and only then is the upstream `onmessage` callback invoked with the
message.  The callback's effect on the transport state is abstracted as a
state transformer `onmsg`. -/
def handlePostInitialize (rid : RId) (pid : Nat) (onmsg : St → St)
    (st : St) : St :=
  onmsg (installInitIntercept rid pid st)

/-- The ordinary (non-initialize) POST path for a successfully parsed body
(part_004 lines 461-521, state effects only): the upstream `onmessage`
callback is invoked first (line 463); afterwards, only when the message is
Request-shaped and a non-empty session-identifier header accompanied a
present non-null id (lines 476-484), a `PendingRequest` is recorded with
`Map.set`.  Notifications and unrecognized shapes record nothing.  The
callback's effect on the transport state is abstracted as `onmsg`. -/
def handlePostOrdinary (m : Msg) (sessionHdr : Option String) (now : Int)
    (onmsg : St → St) (st : St) : St :=
  let st1 := onmsg st
  if isJSONRPCNotification m then st1
  else if isJSONRPCRequest m then
    match sessionHdr, m.idF with
    | some sid, some (some rid) =>
        if sid = "" then st1
        else { st1 with pending := aset rid ⟨rid, sid, now⟩ st1.pending }
    | _, _ => st1
  else st1

/-- Session-id choice of `handleGetRequest` (part_004 lines 545-546):
`existingSessionId || this.generateSessionId()` -- any non-empty
`Mcp-Session-Id` header value is reused verbatim, otherwise the freshly
generated random token `fresh` is used.  The registry is never consulted. -/
def handleGetSessionId (fresh : String) (hdr : Option String) : String :=
  match hdr with
  | some s => if s = "" then fresh else s
  | none => fresh

/-- Modelled from the spec: the session-id choice that spec section 4.1 and
claim C8 describe -- reuse the presented header id only when it is a
*known* session id (one present in the registry), otherwise mint the fresh
token.  The source (part_004 lines 545-546) never consults the registry;
this definition exists to be compared with `handleGetSessionId`. -/
def handleGetSessionIdSpec (fresh : String) (hdr : Option String)
    (sessions : List (String × SinkState)) : String :=
  match hdr with
  | some s => if (alookup sessions s).isSome then s else fresh
  | none => fresh

/-- `handleGetRequest` (part_004 lines 541-572, state effects and echoed
header): choose the session id, register a session whose controller is the
new stream's controller when the stream starts (lines 549-556, `Map.set`),
and return the event-stream response echoing `Mcp-Session-Id` (line 569).
The returned string is the echoed header value. -/
def handleGetRequest (fresh : String) (hdr : Option String) (st : St) :
    St × String :=
  let sid := handleGetSessionId fresh hdr
  ({ st with sessions := aset sid .live st.sessions }, sid)

/-- The `cancel` callback of the GET stream (part_004 lines 557-559):
`this.sessions.delete(sessionId)`, unconditionally. -/
def cancelStream (sid : String) (st : St) : St :=
  { st with sessions := aerase sid st.sessions }

/-- First phase of `cleanupPendingRequests` (part_004 lines 703-710):
collect the ids of the entries whose age at sweep time strictly exceeds
`timeoutMs` (`now - pendingRequest.timestamp > timeoutMs`). -/
def expiredKeys (now timeoutMs : Int) (l : List (RId × PReq)) : List RId :=
  l.filterMap (fun p =>
    if now - p.2.timestamp > timeoutMs then some p.1 else none)

/-- `cleanupPendingRequests` (part_004 lines 702-722, default
`timeoutMs = 30000`): collect the expired ids, then delete each collected
id from the map. -/
def cleanupPendingRequests (now timeoutMs : Int)
    (l : List (RId × PReq)) : List (RId × PReq) :=
  (expiredKeys now timeoutMs l).foldl (fun acc k => aerase k acc) l

/-- Prefix test on character lists, used to embed `String.includes`. -/
def leadMatch : List Char → List Char → Bool
  | [], _ => true
  | _ :: _, [] => false
  | c :: cs, d :: ds => (c == d) && leadMatch cs ds

/-- Substring search on character lists. -/
def subSearch (needle : List Char) : List Char → Bool
  | [] => leadMatch needle []
  | d :: ds => leadMatch needle (d :: ds) || subSearch needle ds

/-- JavaScript `hay.includes(needle)` on strings. -/
def containsSub (hay needle : String) : Bool :=
  subSearch needle.toList hay.toList

/-- An inbound HTTP request as the transport inspects it.  `origin` carries
the header's raw value together with the hostname that `new URL(raw)`
yields (`none` when parsing throws) -- URL parsing itself is a platform
primitive and is embedded as this oracle field. -/
structure OriginHdr where
  raw : String
  hostname : Option String
deriving DecidableEq, Repr

/-- `isValidOrigin` (part_004 lines 663-672): the parsed hostname must be
`localhost` or `127.0.0.1`; an unparseable origin is invalid. -/
def isValidOrigin (o : OriginHdr) : Bool :=
  match o.hostname with
  | some h => h = "localhost" || h = "127.0.0.1"
  | none => false

/-- `isSupportedProtocolVersion` (part_004 lines 674-677). -/
def isSupportedProtocolVersion (v : String) : Bool := v = "2025-03-26"

/-- An inbound HTTP request, reduced to the fields `handleRequest` and
`handlePostRequest` inspect.  `body` is the JSON parse result of the POST
body (`none` models `JSON.parse` throwing). -/
structure HttpReq where
  path : String
  method : String
  origin : Option OriginHdr
  protocolVersion : Option String
  accept : Option String
  sessionHeader : Option String
  body : Option Msg
deriving DecidableEq, Repr

/-- Outcome of `handleRequest` on one inbound request (part_004 lines
360-386 and the response values of `handlePostRequest` /
`handleGetRequest`). -/
inductive ReqOutcome where
  | notFound
  | forbidden
  | badVersion
  | badAccept
  | parseError
  | initPending
  | accepted
  | postStream
  | invalidMessage
  | getStream (sid : String)
  | methodNotAllowed
deriving DecidableEq, Repr

/-- HTTP status carried by each outcome: streams are 200 responses, the
initialize fast path eventually resolves with 200 (part_004 line 441). -/
def outcomeStatus : ReqOutcome → Nat
  | .notFound => 404
  | .forbidden => 403
  | .badVersion => 400
  | .badAccept => 400
  | .parseError => 400
  | .initPending => 200
  | .accepted => 202
  | .postStream => 200
  | .invalidMessage => 400
  | .getStream _ => 200
  | .methodNotAllowed => 405

/-- The Accept check of `handlePostRequest` (part_004 line 402):
`!acceptHeader || (!acceptHeader.includes("application/json") &&
!acceptHeader.includes("text/event-stream"))` rejects; this is the
complement. -/
def acceptOk (a : Option String) : Bool :=
  match a with
  | none => false
  | some s =>
      s ≠ "" &&
        (containsSub s "application/json" ||
          containsSub s "text/event-stream")

/-- Response selection of `handlePostRequest` after negotiation (part_004
lines 398-521): Accept check, JSON parse, then classification -- the
initialize fast path returns a pending promise, a notification 202, an
ordinary request a per-call stream (when Accept includes
`text/event-stream`) or 202, anything else 400. -/
def postOutcome (r : HttpReq) : ReqOutcome :=
  if !acceptOk r.accept then .badAccept
  else
    match r.body with
    | none => .parseError
    | some m =>
        if isJSONRPCRequest m && (m.method? == some "initialize") then
          .initPending
        else if isJSONRPCNotification m then .accepted
        else if isJSONRPCRequest m then
          match r.accept with
          | some s =>
              if containsSub s "text/event-stream" then .postStream
              else .accepted
          | none => .accepted
        else .invalidMessage

/-- Origin rejection condition of `handleRequest` (part_004 lines 368-371):
`origin && !this.isValidOrigin(origin)` -- a present non-empty `Origin`
header that does not resolve to a loopback host. -/
def originRejected (r : HttpReq) : Bool :=
  match r.origin with
  | some o => o.raw ≠ "" && !isValidOrigin o
  | none => false

/-- Protocol-version rejection condition of `handleRequest` (part_004 lines
373-377): the effective version -- the header value, defaulting to
`2025-03-26` when absent or empty -- is unsupported. -/
def versionRejected (r : HttpReq) : Bool :=
  !isSupportedProtocolVersion
    (match r.protocolVersion with
      | some v => if v = "" then "2025-03-26" else v
      | none => "2025-03-26")

/-- `handleRequest` (part_004 lines 360-386): path check, then origin check
(skipped for an absent or empty `Origin` header), then protocol-version
check (an absent or empty header defaults to the supported version), then
dispatch on the HTTP method; anything other than POST or GET is 405. -/
def handleRequestOutcome (cfgPath fresh : String) (r : HttpReq) :
    ReqOutcome :=
  if r.path ≠ cfgPath then .notFound
  else if originRejected r then .forbidden
  else if versionRejected r then .badVersion
  else if r.method = "POST" then postOutcome r
  else if r.method = "GET" then
    .getStream (handleGetSessionId fresh r.sessionHeader)
  else .methodNotAllowed

/-- Fixture: a transport state with one open session `s1` with a live sink,
nothing pending, the class method in the send slot, and empty logs. -/
def stOneLive : St :=
  { sessions := [("s1", .live)], pending := [], slot := .original,
    delivered := [], resolved := [], errors := [] }

/-- Fixture: `stOneLive` with the initialize interception for request id 1
and HTTP promise 0 installed over the class method. -/
def stInt : St :=
  { stOneLive with slot := .intercept (.num 1) 0 .original }

/-- Fixture: `stOneLive` with two nested initialize interceptions, for
request id 1 / promise 1 installed first and request id 2 / promise 2
installed second (two concurrent initialize POSTs). -/
def stNested : St :=
  installInitIntercept (.num 2) 2 (installInitIntercept (.num 1) 1 stOneLive)

/-- Fixture: a Response with id 1. -/
def respOne : Msg := { method? := none, idF := some (some (.num 1)) }

/-- Fixture: a Response with id 2. -/
def respTwo : Msg := { method? := none, idF := some (some (.num 2)) }

/-- Fixture: a Notification (`method` present, `id` absent). -/
def noteMsg : Msg := { method? := some "progress", idF := none }

/-- Fixture: a Request with method `ping` and id 1. -/
def reqPing : Msg := { method? := some "ping", idF := some (some (.num 1)) }

/-- Fixture: a payload fitting none of the three shapes (no `method`,
`id` present but `null`). -/
def mBad : Msg := { method? := none, idF := some none }

theorem mem_aerase {κ α : Type} [DecidableEq κ] (k : κ) (l : List (κ × α))
    (x : κ × α) : x ∈ aerase k l ↔ x ∈ l ∧ x.1 ≠ k := by
  simp [aerase, List.mem_filter]

theorem alookup_aerase_self {κ α : Type} [DecidableEq κ] (k : κ)
    (l : List (κ × α)) : alookup (aerase k l) k = none := by
  induction l with
  | nil => rfl
  | cons p rest ih =>
      by_cases h : p.1 = k
      · simpa [aerase, List.filter_cons, h] using ih
      · simpa [aerase, List.filter_cons, h, alookup] using ih

theorem alookup_aset_self {κ α : Type} [DecidableEq κ] (k : κ) (v : α)
    (l : List (κ × α)) : alookup (aset k v l) k = some v := by
  induction l with
  | nil => simp [aset, alookup]
  | cons p rest ih =>
      by_cases h : p.1 = k
      · rcases p with ⟨k', v'⟩
        simp_all [aset, alookup]
      · rcases p with ⟨k', v'⟩
        simp_all [aset, alookup]

theorem broadcastStep_spec (m : Msg) (l : List (String × SinkState)) :
    broadcastStep m l =
      (l.filter (fun p => !sinkClosed p.2),
        l.filterMap (fun p => if sinkLive p.2 then some (p.1, m) else none),
        l.filterMap (fun p =>
          if sinkClosed p.2 then
            some ("Session " ++ p.1 ++ " closed unexpectedly")
          else none)) := by
  induction l with
  | nil => rfl
  | cons p rest ih =>
      rcases p with ⟨sid, sk⟩
      cases sk <;>
        simp [broadcastStep, ih, sinkClosed, sinkLive, List.filter_cons,
          List.filterMap_cons]

/-- C4.  During a broadcast, exactly the sessions whose write fails (closed
sinks) are removed from the registry; every other open session receives the
message (the live ones get a write, the controller-less ones are skipped
but kept); each failure is appended to the error log -- `broadcastMessage`
is a total function, so no failure escapes the call; the pending map, the
send slot and the resolved log are untouched. -/
theorem broadcast_failure_isolation (m : Msg) (st : St) :
    (broadcastMessage m st).sessions =
        st.sessions.filter (fun p => !sinkClosed p.2) ∧
      (broadcastMessage m st).delivered =
        st.delivered ++
          st.sessions.filterMap
            (fun p => if sinkLive p.2 then some (p.1, m) else none) ∧
      (broadcastMessage m st).errors =
        st.errors ++
          st.sessions.filterMap (fun p =>
            if sinkClosed p.2 then
              some ("Session " ++ p.1 ++ " closed unexpectedly")
            else none) ∧
      (broadcastMessage m st).pending = st.pending ∧
      (broadcastMessage m st).slot = st.slot ∧
      (broadcastMessage m st).resolved = st.resolved := by
  simp [broadcastMessage, broadcastStep_spec]

/-- C5.  Classification is exclusive and total over well-formed JSON-RPC
objects: the three type guards are pairwise exclusive, a message satisfies
one of them exactly when it fits the shape rule (a `method` field, or a
present non-null `id`), and a payload fitting none of the three is handled
by the final fallback of `send`, which broadcasts it. -/
theorem classification_total_exclusive (m : Msg) (st : St) :
    (isJSONRPCRequest m && isJSONRPCNotification m) = false ∧
      (isJSONRPCRequest m && isJSONRPCResponse m) = false ∧
      (isJSONRPCNotification m && isJSONRPCResponse m) = false ∧
      wellFormedJSONRPC m =
        (isJSONRPCRequest m || isJSONRPCNotification m ||
          isJSONRPCResponse m) ∧
      (wellFormedJSONRPC m = false →
        sendDispatch m st = broadcastMessage m st) := by
  rcases m with ⟨mo, ido⟩
  rcases mo with _ | mv <;> rcases ido with _ | (_ | iv) <;>
    simp [isJSONRPCRequest, isJSONRPCNotification, isJSONRPCResponse,
      wellFormedJSONRPC, hasMethod, sendDispatch]

/-- C5 witness: the payload with no `method` and a `null` id fits none of
the shapes and is broadcast by `send`. -/
theorem classification_total_exclusive_witness :
    sendDispatch mBad stOneLive = broadcastMessage mBad stOneLive :=
  (classification_total_exclusive mBad stOneLive).2.2.2.2 rfl

/-- C9.  Cancellation of a session's SSE stream runs
`this.sessions.delete(sessionId)` unconditionally; afterwards no entry for
that session id remains in the registry, so no lookup under that id can
reach a sink believed open. -/
theorem cancel_removes_session (sid : String) (st : St) :
    alookup (cancelStream sid st).sessions sid = none := by
  simp [cancelStream]
  exact alookup_aerase_self sid st.sessions

/-- C3.  Correlation is consumed at most once and only ever created under a
session header: (1) a Response whose id matches a registered pending
request whose target session is open with a live sink is written only to
that session's stream, the correlation entry is removed, and afterwards no
correlation for that id remains -- so (2) a Response for an id with no
registered correlation (in particular a second send of the same id) is
broadcast to all open sessions; and (3) a POST without a session-identifier
header registers nothing with the correlator. -/
theorem response_correlation_at_most_once :
    (∀ (m : Msg) (rid : RId) (pr : PReq) (st : St),
      m.idF = some (some rid) →
      alookup st.pending rid = some pr →
      alookup st.sessions pr.sessionId = some .live →
      sendResponse m st =
          { st with
            pending := aerase rid st.pending
            delivered := st.delivered ++ [(pr.sessionId, m)] } ∧
        alookup (sendResponse m st).pending rid = none) ∧
    (∀ (m : Msg) (rid : RId) (st : St),
      m.idF = some (some rid) →
      alookup st.pending rid = none →
      sendResponse m st = broadcastMessage m st) ∧
    (∀ (m : Msg) (now : Int) (st : St),
      handlePostOrdinary m none now (fun s => s) st = st) := by
  refine ⟨?_, ?_, ?_⟩
  · intro m rid pr st hid hpend hsess
    have he : sendResponse m st =
        { st with
          pending := aerase rid st.pending
          delivered := st.delivered ++ [(pr.sessionId, m)] } := by
      simp [sendResponse, hid, hpend, hsess]
    refine ⟨he, ?_⟩
    rw [he]
    exact alookup_aerase_self rid st.pending
  · intro m rid st hid hpend
    simp [sendResponse, hid, hpend]
  · intro m now st
    rcases h : m.idF with _ | (_ | iv) <;>
      simp [handlePostOrdinary, h]

/-- C3 witness: with pending id 1 registered for open session `s1`, the
response with id 1 is delivered only to `s1` and the correlation is
consumed; a response with an unregistered id is broadcast; a POST without a
session header registers nothing. -/
theorem response_correlation_at_most_once_witness :
    (sendResponse respOne
        { stOneLive with pending := [(.num 1, ⟨.num 1, "s1", 0⟩)] } =
      { stOneLive with
        pending := aerase (.num 1) [((.num 1 : RId), (⟨.num 1, "s1", 0⟩ : PReq))]
        delivered := [("s1", respOne)] }) ∧
    sendResponse respTwo stOneLive = broadcastMessage respTwo stOneLive ∧
    handlePostOrdinary reqPing none 5 (fun s => s) stOneLive = stOneLive := by
  refine ⟨?_, ?_, ?_⟩
  · exact (response_correlation_at_most_once.1 respOne (.num 1)
      ⟨.num 1, "s1", 0⟩
      { stOneLive with pending := [(.num 1, ⟨.num 1, "s1", 0⟩)] }
      rfl (by decide) (by decide)).1
  · exact response_correlation_at_most_once.2.1 respTwo (.num 2) stOneLive
      rfl rfl
  · exact response_correlation_at_most_once.2.2 reqPing 5 stOneLive

/-- C10.  On the ordinary (non-initialize) Request path the upstream
callback runs before the pending-request registration: when the callback
synchronously sends the Response matching the request's id, that Response
finds no correlation and is broadcast (the whole run equals a broadcast of
the response followed by the registration), and the entry registered
afterwards remains in the map. -/
theorem ordinary_post_callback_before_registration
    (m r : Msg) (rid : RId) (sid : String) (now : Int) (st : St)
    (hslot : st.slot = .original)
    (hpend : alookup st.pending rid = none)
    (hreq : isJSONRPCRequest m = true)
    (hmid : m.idF = some (some rid))
    (hresp : isJSONRPCResponse r = true)
    (hrid : r.idF = some (some rid))
    (hsid : sid ≠ "") :
    handlePostOrdinary m (some sid) now (callSend r) st =
        { broadcastMessage r st with
          pending := aset rid ⟨rid, sid, now⟩ st.pending } ∧
      alookup
          (handlePostOrdinary m (some sid) now (callSend r) st).pending rid =
        some ⟨rid, sid, now⟩ := by
  have hnot : isJSONRPCNotification m = false := by
    rcases m with ⟨mo, ido⟩
    cases hmid
    simp [isJSONRPCNotification]
  have hsend : callSend r st = broadcastMessage r st := by
    rw [callSend, hslot]
    simp [execSend, sendDispatch, hresp, sendResponse, hrid, hpend]
  have he : handlePostOrdinary m (some sid) now (callSend r) st =
      { broadcastMessage r st with
        pending := aset rid ⟨rid, sid, now⟩ st.pending } := by
    simp [handlePostOrdinary, hnot, hreq, hmid, hsid, hsend, broadcastMessage]
  refine ⟨he, ?_⟩
  rw [he]
  exact alookup_aset_self rid ⟨rid, sid, now⟩ st.pending

/-- C10 witness: a `ping` request with id 1 and session header `s1` whose
callback immediately sends the matching response: the response is broadcast
(delivered to `s1` via the broadcast loop, not the correlation path) and
the entry for id 1 is still pending afterwards. -/
theorem ordinary_post_callback_before_registration_witness :
    handlePostOrdinary reqPing (some "s1") 5 (callSend respOne) stOneLive =
        { broadcastMessage respOne stOneLive with
          pending := aset (.num 1) ⟨.num 1, "s1", 5⟩ stOneLive.pending } ∧
      alookup
          (handlePostOrdinary reqPing (some "s1") 5 (callSend respOne)
            stOneLive).pending (.num 1) =
        some ⟨.num 1, "s1", 5⟩ :=
  ordinary_post_callback_before_registration reqPing respOne (.num 1) "s1" 5
    stOneLive rfl rfl rfl rfl rfl rfl (by decide)

theorem mem_foldl_aerase {κ α : Type} [DecidableEq κ] (ks : List κ) :
    ∀ (l : List (κ × α)) (x : κ × α),
      x ∈ ks.foldl (fun acc k => aerase k acc) l ↔ x ∈ l ∧ x.1 ∉ ks := by
  induction ks with
  | nil => intro l x; simp
  | cons k ks ih =>
      intro l x
      rw [List.foldl_cons, ih, mem_aerase]
      constructor
      · rintro ⟨⟨hx, hk⟩, hks⟩
        exact ⟨hx, by simp [hk, hks]⟩
      · rintro ⟨hx, hmem⟩
        simp only [List.mem_cons, not_or] at hmem
        exact ⟨⟨hx, hmem.1⟩, hmem.2⟩

theorem mem_expiredKeys (now timeoutMs : Int) (l : List (RId × PReq))
    (k : RId) :
    k ∈ expiredKeys now timeoutMs l ↔
      ∃ pr, (k, pr) ∈ l ∧ now - pr.timestamp > timeoutMs := by
  simp only [expiredKeys, List.mem_filterMap]
  constructor
  · rintro ⟨⟨k', pr⟩, hmem, hf⟩
    by_cases h : now - pr.timestamp > timeoutMs
    · simp only [h, if_pos] at hf
      cases hf
      exact ⟨pr, hmem, h⟩
    · simp [h] at hf
  · rintro ⟨pr, hmem, h⟩
    exact ⟨(k, pr), hmem, by simp [h]⟩

theorem nodup_keys_unique {κ α : Type} [DecidableEq κ]
    (l : List (κ × α)) (hnd : (l.map Prod.fst).Nodup) (k : κ) (v v' : α)
    (h1 : (k, v) ∈ l) (h2 : (k, v') ∈ l) : v = v' := by
  induction l with
  | nil => cases h1
  | cons p rest ih =>
      simp only [List.map_cons, List.nodup_cons] at hnd
      rcases List.mem_cons.1 h1 with h1 | h1 <;>
        rcases List.mem_cons.1 h2 with h2 | h2
      · rw [← h1] at h2; cases h2; rfl
      · exfalso; apply hnd.1; rw [← h1]
        exact List.mem_map.2 ⟨(k, v'), h2, rfl⟩
      · exfalso; apply hnd.1; rw [← h2]
        exact List.mem_map.2 ⟨(k, v), h1, rfl⟩
      · exact ih hnd.2 h1 h2

/-- C6 counterexample to the claim as stated: a pending request registered
at the very millisecond of the sweep has age 0, which does not *exceed* 0,
so `cleanupPendingRequests` with threshold 0 keeps it -- `sweep(0)` does
not remove all pending requests. -/
theorem sweep_zero_keeps_fresh_entry :
    cleanupPendingRequests 100 0 [(.num 1, ⟨.num 1, "s1", 100⟩)] =
        [(.num 1, ⟨.num 1, "s1", 100⟩)] ∧
      ([((.num 1 : RId), (⟨.num 1, "s1", 100⟩ : PReq))] ≠ []) := by
  constructor
  · rfl
  · simp

/-- C6 (amended).  On a map with unique keys (the `Map` invariant), the
sweep removes exactly those pending requests whose age at sweep time
strictly exceeds the threshold and keeps every other entry untouched; with
threshold 0 it removes exactly the entries of strictly positive age, so an
entry registered in the same millisecond as the sweep survives. -/
theorem sweep_removes_exactly_expired (now timeoutMs : Int)
    (l : List (RId × PReq)) (hnd : (l.map Prod.fst).Nodup)
    (rid : RId) (pr : PReq) :
    (rid, pr) ∈ cleanupPendingRequests now timeoutMs l ↔
      (rid, pr) ∈ l ∧ ¬(now - pr.timestamp > timeoutMs) := by
  rw [cleanupPendingRequests, mem_foldl_aerase]
  constructor
  · rintro ⟨hmem, hk⟩
    refine ⟨hmem, fun hexp => hk ?_⟩
    exact (mem_expiredKeys now timeoutMs l rid).2 ⟨pr, hmem, hexp⟩
  · rintro ⟨hmem, hfresh⟩
    refine ⟨hmem, fun hk => ?_⟩
    rcases (mem_expiredKeys now timeoutMs l rid).1 hk with ⟨pr', hmem', hexp⟩
    rw [nodup_keys_unique l hnd rid pr pr' hmem hmem'] at hfresh
    exact hfresh hexp

/-- C6 witness: with two entries aged 50 and 0 at sweep time 100 and
threshold 30, the aged entry is gone and the fresh one survives. -/
theorem sweep_removes_exactly_expired_witness :
    (((.num 1 : RId), (⟨.num 1, "s1", 50⟩ : PReq)) ∉
        cleanupPendingRequests 100 30
          [(.num 1, ⟨.num 1, "s1", 50⟩), (.num 2, ⟨.num 2, "s2", 100⟩)]) ∧
      ((.num 2 : RId), (⟨.num 2, "s2", 100⟩ : PReq)) ∈
        cleanupPendingRequests 100 30
          [(.num 1, ⟨.num 1, "s1", 50⟩), (.num 2, ⟨.num 2, "s2", 100⟩)] := by
  constructor
  · intro h
    have := (sweep_removes_exactly_expired 100 30
      [(.num 1, ⟨.num 1, "s1", 50⟩), (.num 2, ⟨.num 2, "s2", 100⟩)]
      (by decide) (.num 1) ⟨.num 1, "s1", 50⟩).1 h
    exact absurd (by decide : (100 : Int) - 50 > 30) this.2
  · exact (sweep_removes_exactly_expired 100 30
      [(.num 1, ⟨.num 1, "s1", 50⟩), (.num 2, ⟨.num 2, "s2", 100⟩)]
      (by decide) (.num 2) ⟨.num 2, "s2", 100⟩).2 ⟨by decide, by decide⟩

/-- C7.  Inbound validation order and statuses: a wrong path yields 404
regardless of everything else; on the right path a present (non-empty)
Origin header not resolving to a loopback host yields 403; past that, a
present (non-empty) protocol-version header differing from the supported
version yields 400; past that, for POST, an Accept header including
neither media type yields 400; and past path, origin and version checks a
method other than GET and POST yields 405.  Each conjunct's hypotheses
require only the earlier checks to pass, which is the claimed ordering. -/
theorem negotiation_order_statuses (cfg fresh : String) (r : HttpReq) :
    (r.path ≠ cfg → handleRequestOutcome cfg fresh r = .notFound) ∧
      (r.path = cfg → ∀ o, r.origin = some o → o.raw ≠ "" →
        isValidOrigin o = false →
        handleRequestOutcome cfg fresh r = .forbidden) ∧
      (r.path = cfg → originRejected r = false →
        ∀ v, r.protocolVersion = some v → v ≠ "" → v ≠ "2025-03-26" →
        handleRequestOutcome cfg fresh r = .badVersion) ∧
      (r.path = cfg → originRejected r = false → versionRejected r = false →
        r.method = "POST" → acceptOk r.accept = false →
        handleRequestOutcome cfg fresh r = .badAccept) ∧
      (r.path = cfg → originRejected r = false → versionRejected r = false →
        r.method ≠ "POST" → r.method ≠ "GET" →
        handleRequestOutcome cfg fresh r = .methodNotAllowed) ∧
      (outcomeStatus .notFound = 404 ∧ outcomeStatus .forbidden = 403 ∧
        outcomeStatus .badVersion = 400 ∧ outcomeStatus .badAccept = 400 ∧
        outcomeStatus .methodNotAllowed = 405) := by
  refine ⟨?_, ?_, ?_, ?_, ?_, rfl, rfl, rfl, rfl, rfl⟩
  · intro h
    simp [handleRequestOutcome, h]
  · intro hp o ho hraw hinv
    have hor : originRejected r = true := by
      simp [originRejected, ho, hraw, hinv]
    simp [handleRequestOutcome, hp, hor]
  · intro hp ho v hv hne hns
    have hvr : versionRejected r = true := by
      simp [versionRejected, hv, hne, isSupportedProtocolVersion, hns]
    simp [handleRequestOutcome, hp, ho, hvr]
  · intro hp ho hv hm ha
    simp [handleRequestOutcome, hp, ho, hv, hm, postOutcome, ha]
  · intro hp ho hv h1 h2
    simp [handleRequestOutcome, hp, ho, hv, h1, h2]

/-- C7 witness: a POST to the right path with `Accept: text/plain` is
rejected 400, and a DELETE past negotiation is rejected 405. -/
theorem negotiation_order_statuses_witness :
    handleRequestOutcome "/mcp" "tok"
        { path := "/mcp", method := "POST", origin := none,
          protocolVersion := none, accept := some "text/plain",
          sessionHeader := none, body := none } =
      .badAccept ∧
    handleRequestOutcome "/mcp" "tok"
        { path := "/mcp", method := "DELETE", origin := none,
          protocolVersion := none, accept := none,
          sessionHeader := none, body := none } =
      .methodNotAllowed := by
  constructor
  · exact (negotiation_order_statuses "/mcp" "tok"
      { path := "/mcp", method := "POST", origin := none,
        protocolVersion := none, accept := some "text/plain",
        sessionHeader := none, body := none }).2.2.2.1
      rfl rfl rfl rfl (by decide)
  · exact (negotiation_order_statuses "/mcp" "tok"
      { path := "/mcp", method := "DELETE", origin := none,
        protocolVersion := none, accept := none,
        sessionHeader := none, body := none }).2.2.2.2.1
      rfl rfl rfl (by decide) (by decide)

/-- C8 counterexample to the claim as stated: the GET handler reuses *any*
presented session-identifier header without consulting the registry, so
with an empty registry and header value `abc` the stream's identity is
`abc`, while the claimed behaviour ("otherwise a freshly minted random
token") -- formalised by `handleGetSessionIdSpec`, which reuses only a
*known* id -- would pick the fresh token `xyz`. -/
theorem get_reuses_unknown_session_header :
    handleGetSessionId "xyz" (some "abc") = "abc" ∧
      handleGetSessionIdSpec "xyz" (some "abc") [] = "xyz" ∧
      ("abc" : String) ≠ "xyz" :=
  ⟨rfl, rfl, by decide⟩

/-- C8 (amended).  For every GET that passes negotiation: a present
non-empty session-identifier header is reused verbatim as the stream's
session identity whether or not the id is known to the registry; an absent
(or empty) header yields the freshly minted token; in both cases the
resulting id is echoed back in the `Mcp-Session-Id` response header (the
second component) and is registered with a live sink when the stream
starts. -/
theorem get_session_id_choice (fresh : String) (hdr : Option String)
    (st : St) :
    (∀ s, hdr = some s → s ≠ "" → (handleGetRequest fresh hdr st).2 = s) ∧
      ((hdr = none ∨ hdr = some "") →
        (handleGetRequest fresh hdr st).2 = fresh) ∧
      alookup (handleGetRequest fresh hdr st).1.sessions
          (handleGetRequest fresh hdr st).2 =
        some .live := by
  refine ⟨?_, ?_, ?_⟩
  · intro s hs hne
    simp [handleGetRequest, handleGetSessionId, hs, hne]
  · rintro (h | h) <;> simp [handleGetRequest, handleGetSessionId, h]
  · simp only [handleGetRequest]
    exact alookup_aset_self _ _ _

/-- C8 witness: a GET presenting header `abc` against a registry that does
not know `abc` gets session identity `abc`, echoed and registered live. -/
theorem get_session_id_choice_witness :
    (handleGetRequest "tok" (some "abc") stOneLive).2 = "abc" ∧
      alookup (handleGetRequest "tok" (some "abc") stOneLive).1.sessions
          "abc" =
        some .live := by
  have h := get_session_id_choice "tok" (some "abc") stOneLive
  have he := h.1 "abc" rfl (by decide)
  refine ⟨he, ?_⟩
  have hr := h.2.2
  rwa [he] at hr

/-- C1 counterexample to the claim as stated: with the initialize
interception for request id 1 installed, a first outbound send of a
non-matching Notification uninstalls the interception (the send slot is
back to the class method), so the matching Response sent afterwards
resolves nothing -- the interception does not remain installed until the
matching Response is observed. -/
theorem init_intercept_uninstalls_on_first_send :
    (callSend noteMsg stInt).slot = SendSlot.original ∧
      (callSend respOne (callSend noteMsg stInt)).resolved = [] := by
  constructor <;> rfl

/-- C1 (amended).  The initialize fast path installs the interception
before invoking the upstream callback; while it is installed, the first
outbound send call consumes it: when that first message is a Response
whose id equals the initialize request's id it is returned as the POST's
HTTP reply with status 200 and JSON content type, and any other first
message is instead forwarded unchanged to the normal outbound routing --
in both cases the interception is uninstalled by that first call, matching
or not. -/
theorem init_intercept_first_call_behaviour (rid : RId) (pid : Nat)
    (onmsg : St → St) (m : Msg) (st : St) :
    handlePostInitialize rid pid onmsg st =
        onmsg { st with slot := .intercept rid pid st.slot } ∧
      (st.slot = .intercept rid pid .original →
        ((isJSONRPCResponse m = true ∧ m.idF = some (some rid)) →
          callSend m st =
            { st with
              slot := .original
              resolved :=
                st.resolved ++ [⟨pid, 200, "application/json", m⟩] }) ∧
        (¬(isJSONRPCResponse m = true ∧ m.idF = some (some rid)) →
          callSend m st = sendDispatch m { st with slot := .original })) := by
  refine ⟨rfl, fun hs => ⟨?_, ?_⟩⟩
  · intro h
    rw [callSend, hs]
    simp [execSend, h.1, h.2]
  · intro h
    rw [callSend, hs]
    simp [execSend, h]

/-- C1 witness: with the interception for id 1 / promise 0 installed, the
matching response as first outbound message resolves the POST with a
200 JSON reply and restores the class method. -/
theorem init_intercept_first_call_behaviour_witness :
    callSend respOne stInt =
      { stInt with
        slot := .original
        resolved :=
          stInt.resolved ++ [⟨0, 200, "application/json", respOne⟩] } :=
  ((init_intercept_first_call_behaviour (.num 1) 0 id respOne stInt).2
    rfl).1 ⟨rfl, rfl⟩

theorem execSend_intercept_match (rid : RId) (pid : Nat) (inner : SendSlot)
    (m : Msg) (st : St) (h : isJSONRPCResponse m = true)
    (hi : m.idF = some (some rid)) :
    execSend (.intercept rid pid inner) m st =
      { st with
        slot := inner
        resolved := st.resolved ++ [⟨pid, 200, "application/json", m⟩] } := by
  simp [execSend, h, hi]

theorem execSend_intercept_skip (rid : RId) (pid : Nat) (inner : SendSlot)
    (m : Msg) (st : St)
    (h : ¬(isJSONRPCResponse m = true ∧ m.idF = some (some rid))) :
    execSend (.intercept rid pid inner) m st =
      execSend inner m { st with slot := inner } := by
  simp [execSend, h]

/-- C2 counterexample to the claim as stated: two initialize interceptions
for ids 1 and 2 are installed (in that order) and the responses arrive in
the same order.  The response with id 1 first passes through the
interception for id 2 -- popping it -- and then resolves promise 1; both
interceptions are now gone, so the response with id 2 resolves nothing and
is broadcast to the open session instead.  The second POST never receives
its matching synchronous 200 reply, refuting "each of the two POSTs
receives as its synchronous 200 reply exactly the Response whose id
matches its own request". -/
theorem concurrent_init_fifo_starves_second :
    (callSend respTwo (callSend respOne stNested)).resolved =
        [⟨1, 200, "application/json", respOne⟩] ∧
      (callSend respTwo (callSend respOne stNested)).delivered =
        [("s1", respTwo)] := by
  constructor <;> rfl

/-- C2 (amended).  The interception is a global nested stack keyed by
nothing: each outbound send call pops exactly one layer.  No cross-delivery
ever occurs (a promise only resolves with the response carrying its own
request id) and no non-matching message is dropped (it is forwarded
onward).  When the two responses arrive in reverse installation order
(LIFO), each POST receives its own matching 200 reply and nothing is
written to any stream; when they arrive in installation order (FIFO), the
first POST receives its reply but both interceptions are consumed, and the
second response goes through the normal outbound routing instead of
resolving the second POST. -/
theorem concurrent_init_nested_interception
    (id1 id2 : RId) (p1 p2 : Nat) (r1 r2 : Msg) (st : St)
    (hslot : st.slot = .original) (hne : id1 ≠ id2)
    (h1 : isJSONRPCResponse r1 = true) (h1i : r1.idF = some (some id1))
    (h2 : isJSONRPCResponse r2 = true) (h2i : r2.idF = some (some id2)) :
    ((callSend r1 (callSend r2
          (installInitIntercept id2 p2
            (installInitIntercept id1 p1 st)))).resolved =
        st.resolved ++ [⟨p2, 200, "application/json", r2⟩,
          ⟨p1, 200, "application/json", r1⟩] ∧
      (callSend r1 (callSend r2
          (installInitIntercept id2 p2
            (installInitIntercept id1 p1 st)))).slot = .original ∧
      (callSend r1 (callSend r2
          (installInitIntercept id2 p2
            (installInitIntercept id1 p1 st)))).delivered = st.delivered) ∧
    ((callSend r1
          (installInitIntercept id2 p2
            (installInitIntercept id1 p1 st))).resolved =
        st.resolved ++ [⟨p1, 200, "application/json", r1⟩] ∧
      (callSend r1
          (installInitIntercept id2 p2
            (installInitIntercept id1 p1 st))).slot = .original ∧
      callSend r2 (callSend r1
          (installInitIntercept id2 p2
            (installInitIntercept id1 p1 st))) =
        sendDispatch r2 (callSend r1
          (installInitIntercept id2 p2
            (installInitIntercept id1 p1 st)))) := by
  have hn21 : ¬(isJSONRPCResponse r1 = true ∧ r1.idF = some (some id2)) := by
    rintro ⟨-, hcontra⟩
    rw [h1i] at hcontra
    exact hne (by simpa using hcontra)
  have hI : installInitIntercept id2 p2 (installInitIntercept id1 p1 st) =
      { st with slot := .intercept id2 p2 (.intercept id1 p1 .original) } := by
    simp [installInitIntercept, hslot]
  constructor
  · have eA : callSend r2
        (installInitIntercept id2 p2 (installInitIntercept id1 p1 st)) =
        { st with
          slot := .intercept id1 p1 .original
          resolved := st.resolved ++ [⟨p2, 200, "application/json", r2⟩] } := by
      rw [hI, callSend]
      exact execSend_intercept_match id2 p2 _ r2 _ h2 h2i
    have eB : callSend r1
        ({ st with
          slot := .intercept id1 p1 .original
          resolved :=
            st.resolved ++ [⟨p2, 200, "application/json", r2⟩] } : St) =
        { st with
          slot := .original
          resolved := st.resolved ++ [⟨p2, 200, "application/json", r2⟩,
            ⟨p1, 200, "application/json", r1⟩] } := by
      rw [callSend]
      have := execSend_intercept_match id1 p1 .original r1
        ({ st with
          slot := .intercept id1 p1 .original
          resolved :=
            st.resolved ++ [⟨p2, 200, "application/json", r2⟩] } : St) h1 h1i
      simpa using this
    rw [eA, eB]
    exact ⟨rfl, rfl, rfl⟩
  · have eC : callSend r1
        (installInitIntercept id2 p2 (installInitIntercept id1 p1 st)) =
        { st with
          slot := .original
          resolved := st.resolved ++ [⟨p1, 200, "application/json", r1⟩] } := by
      rw [hI, callSend]
      rw [show ({ st with
            slot := .intercept id2 p2 (.intercept id1 p1 .original) } : St).slot
          = .intercept id2 p2 (.intercept id1 p1 .original) from rfl]
      rw [execSend_intercept_skip id2 p2 _ r1 _ hn21]
      have := execSend_intercept_match id1 p1 .original r1
        ({ st with slot := .intercept id1 p1 .original } : St) h1 h1i
      simpa using this
    refine ⟨by rw [eC], by rw [eC], ?_⟩
    rw [eC, callSend]
    rfl

/-- C2 witness: with interceptions for ids 1 and 2 nested, responses
arriving in reverse installation order resolve both POSTs, each with its
own matching response. -/
theorem concurrent_init_nested_interception_witness :
    (callSend respOne (callSend respTwo stNested)).resolved =
      stOneLive.resolved ++ [⟨2, 200, "application/json", respTwo⟩,
        ⟨1, 200, "application/json", respOne⟩] :=
  (concurrent_init_nested_interception (.num 1) (.num 2) 1 2 respOne respTwo
    stOneLive rfl (by decide) rfl rfl rfl rfl).1.1
